import Mathlib

/-! The certinfo-s3 handler.

A shallow embedding of `certinfo-s3/handler.go` and the properties of it that
the specification states.

Go strings are embedded as Lean `String`s (sequences of runes, that is, valid
UTF-8 text).  A Go `error` is embedded as its message (`err.Error()`), and a
function returning `(value, error)` as a function into `Except String value`.
Everything the handler calls that lives outside `handler.go` (the network, the
process environment, the clock behind `humanize.Time`, the storage helper
`saveToS3`, and the library encoders whose output depends on tables or on the
library version) is a field of the record `Env`.

The two deferred `Close` calls of `downloadCertificate` release the
connections and do not bear on what it returns; the TLS configuration is the
constant `InsecureSkipVerify: true` together with the server name, which is
the second argument of `Env.handshake`.
-/

namespace CertInfo

/-! ## Go strings -/

/-- Go `strings.HasPrefix(s, pre)`. -/
def HasPrefix (s pre : String) : Bool :=
  pre.data.isPrefixOf s.data

/-- Go `strings.HasSuffix(s, suf)`. -/
def HasSuffix (s suf : String) : Bool :=
  suf.data.isSuffixOf s.data

/-- Go `strings.TrimSuffix(s, suf)`: `s[:len(s)-len(suf)]` when `s` ends in
`suf`, and `s` itself otherwise. -/
def TrimSuffix (s suf : String) : String :=
  if HasSuffix s suf then ⟨s.data.take (s.data.length - suf.data.length)⟩ else s

/-- Go `unicode.ToLower(r)`: the ASCII range is handled by arithmetic
(`r += 'a' - 'A'` for `'A' ≤ r ≤ 'Z'`), every other rune goes through the
Unicode case table `tbl`. -/
def unicodeToLower (tbl : Char → Char) (r : Char) : Char :=
  if r.toNat ≤ 0x7F then
    if 'A'.toNat ≤ r.toNat ∧ r.toNat ≤ 'Z'.toNat then Char.ofNat (r.toNat + ('a'.toNat - 'A'.toNat)) else r
  else tbl r

/-- Go `strings.ToLower(s)`: every rune of `s` mapped through
`unicode.ToLower`. -/
def ToLower (tbl : Char → Char) (s : String) : String :=
  ⟨s.data.map (unicodeToLower tbl)⟩

/-- The lines of a text: the pieces between consecutive newline characters. -/
def linesOf : List Char → List (List Char)
  | [] => [[]]
  | c :: cs =>
    if c = '\n' then [] :: linesOf cs
    else
      match linesOf cs with
      | [] => [[c]]
      | l :: ls => (c :: l) :: ls

/-- Go slice value: the nil slice, or an allocated (possibly empty) sequence.
`encoding/json` tells the two apart. -/
inductive Slice (α : Type) where
  | nil : Slice α
  | elems : List α → Slice α
  deriving DecidableEq, Repr

/-- The elements of a slice, in order. -/
def Slice.toList {α : Type} : Slice α → List α
  | .nil => []
  | .elems l => l

/-- Go `time.Time`: an instant (`sec` seconds since the Unix epoch plus `nsec`
nanoseconds) in a location (zone name and offset in seconds east of UTC). -/
structure Time where
  sec : Int
  nsec : Nat
  zone : String
  offset : Int
  deriving DecidableEq, Repr

/-- Go `t.Unix()`. -/
def Time.Unix (t : Time) : Int := t.sec

/-- Go `pkix.Name`, of which the handler reads the common name. -/
structure Name where
  CommonName : String
  deriving DecidableEq, Repr

/-- Go `x509.Certificate`, restricted to the fields the handler reads. -/
structure Certificate where
  Issuer : Name
  Subject : Name
  NotBefore : Time
  NotAfter : Time
  DNSNames : Slice String
  deriving DecidableEq, Repr

/-- Source `type certificateInfo struct`. -/
structure certificateInfo where
  certificate : Certificate
  host : String
  port : String
  deriving DecidableEq, Repr

/-- Go `url.URL` as the handler sees it: only `u.Hostname()` is read. -/
structure URL where
  Hostname : String
  deriving DecidableEq, Repr

/-- Go `net.Conn` returned by the dial: `RemoteAddr` is
`conn.RemoteAddr().String()`. -/
structure NetConn where
  RemoteAddr : String
  deriving DecidableEq, Repr

/-- The `PeerCertificates` of the connection state after a successful client
handshake.  `crypto/tls` fails the handshake when the server sends an empty
certificate list, so the chain has a first element and
`PeerCertificates[0]` is in range. -/
structure PeerCertificates where
  first : Certificate
  rest : List Certificate
  deriving DecidableEq, Repr

/-- Everything outside `handler.go` that the handler calls. -/
structure Env where
  /-- Unicode lower-case table used by `unicode.ToLower` on non-ASCII runes. -/
  lowerTable : Char → Char
  /-- Library `url.Parse`. -/
  urlParse : String → Except String URL
  /-- Library `net.DialTimeout("tcp", address, 5*time.Second)`. -/
  dialTimeout : String → Except String NetConn
  /-- The TLS client handshake over a connection with the given `ServerName`
  (`tls.Client(ipConn, cfg)` followed by `conn.Handshake()`); on success the
  peer chain of `conn.ConnectionState()`. -/
  handshake : NetConn → String → Except String PeerCertificates
  /-- Library `net.SplitHostPort`. -/
  splitHostPort : String → Except String (String × String)
  /-- Library `os.Getenv`; an unset variable reads as the empty string. -/
  getenv : String → String
  /-- The `%v` rendering of a `time.Time` (its `String()` method). -/
  timeString : Time → String
  /-- The `encoding/json` encoding of a string value (quoted and escaped). -/
  jsonString : String → String
  /-- The `encoding/json` encoding of a `time.Time` (`Time.MarshalJSON`
  wrapped by `json.Marshal`), which fails for some instants. -/
  jsonTime : Time → Except String String
  /-- Library `humanize.Time`, which reads the clock. -/
  humanizeTime : Time → String
  /-- The storage helper `saveToS3(body, name)` of the package. -/
  saveToS3 : String → String → Except String String

/-! ## The handler -/

/-- The `%v` rendering of an `int64`. -/
def fmtInt (n : Int) : String := toString n

/-- The `%v` rendering of a `[]string`: the elements separated by one space,
in square brackets. -/
def fmtStrings (l : Slice String) : String :=
  "[" ++ " ".intercalate l.toList ++ "]"

/-- The anonymous struct `res` of `getCertificateDetailsAsString`. -/
structure Res where
  Host : String
  Port : String
  Issuer : String
  CommonName : String
  NotBefore : Time
  NotAfter : Time
  NotAfterUnix : Int
  SANs : Slice String
  TimeRemaining : String
  deriving DecidableEq, Repr

/-- The `encoding/json` encoding of a `[]string`: `null` for the nil slice,
otherwise the array of the encoded elements. -/
def jsonStrings (E : Env) : Slice String → String
  | .nil => "null"
  | .elems l => "[" ++ ",".intercalate (l.map E.jsonString) ++ "]"

/-- The members of the JSON object that `json.Marshal(res)` emits, in struct
field order, each with its encoded value. -/
def jsonMembers (E : Env) (res : Res) : Except String (List (String × String)) :=
  match E.jsonTime res.NotBefore with
  | .error err => .error err
  | .ok notBefore =>
    match E.jsonTime res.NotAfter with
    | .error err => .error err
    | .ok notAfter =>
      .ok [("Host", E.jsonString res.Host),
           ("Port", E.jsonString res.Port),
           ("Issuer", E.jsonString res.Issuer),
           ("CommonName", E.jsonString res.CommonName),
           ("NotBefore", notBefore),
           ("NotAfter", notAfter),
           ("NotAfterUnix", fmtInt res.NotAfterUnix),
           ("SANs", jsonStrings E res.SANs),
           ("TimeRemaining", E.jsonString res.TimeRemaining)]

/-- The text of a JSON object with the given members. -/
def jsonObject (members : List (String × String)) : String :=
  "\x7b" ++ ",".intercalate (members.map fun kv => "\"" ++ kv.1 ++ "\":" ++ kv.2) ++ "\x7d"

/-- Go `json.Marshal(res)` for the struct `res`. -/
def jsonMarshal (E : Env) (res : Res) : Except String String :=
  match jsonMembers E res with
  | .error err => .error err
  | .ok members => .ok (jsonObject members)

/-- The struct literal `res` built by `getCertificateDetailsAsString` (source
lines 43 to 63). -/
def getCertificateDetailsAsString.res (E : Env) (info : certificateInfo) : Res :=
  { Host := info.host
    Port := info.port
    Issuer := info.certificate.Issuer.CommonName
    CommonName := info.certificate.Subject.CommonName
    NotBefore := info.certificate.NotBefore
    NotAfter := info.certificate.NotAfter
    NotAfterUnix := info.certificate.NotAfter.Unix
    SANs := info.certificate.DNSNames
    TimeRemaining := E.humanizeTime info.certificate.NotAfter }

/-- The JSON branch of `getCertificateDetailsAsString` (source lines 43 to
69): the marshalled `res`, or `Error: ` and the encoder error. -/
def getCertificateDetailsAsString.json (E : Env) (info : certificateInfo) : String :=
  let res := getCertificateDetailsAsString.res E info
  match jsonMarshal E res with
  | .error err => "Error: " ++ err
  | .ok b => b

/-- The plain-text branch of `getCertificateDetailsAsString` (source lines 72
to 75): the `fmt.Sprintf` of the nine values. -/
def getCertificateDetailsAsString.text (E : Env) (info : certificateInfo) : String :=
  "Host " ++ info.host ++ "\nPort " ++ info.port ++
  "\nIssuer " ++ info.certificate.Issuer.CommonName ++
  "\nCommonName " ++ info.certificate.Subject.CommonName ++
  "\nNotBefore " ++ E.timeString info.certificate.NotBefore ++
  "\nNotAfter " ++ E.timeString info.certificate.NotAfter ++
  "\nNotAfterUnix " ++ fmtInt info.certificate.NotAfter.Unix ++
  "\nSANs " ++ fmtStrings info.certificate.DNSNames ++
  "\nTimeRemaining " ++ E.humanizeTime info.certificate.NotAfter

/-- Source `getCertificateDetailsAsString`. -/
def getCertificateDetailsAsString (E : Env) (info : certificateInfo) : String :=
  let asJSON := E.getenv "Http_Query"
  if asJSON.length > 0 && asJSON == "output=json" then
    getCertificateDetailsAsString.json E info
  else
    getCertificateDetailsAsString.text E info

/-- The value of the variable `certificateURI` of `downloadCertificate` when
it is passed to `url.Parse` (source lines 85 to 88). -/
def downloadCertificate.certificateURI (E : Env) (certificateURI : String) : String :=
  let certificateURI := ToLower E.lowerTable certificateURI
  if !HasPrefix certificateURI "http" then "https://" ++ certificateURI else certificateURI

/-- Source `downloadCertificate`. -/
def downloadCertificate (E : Env) (certificateURI : String) : Except String certificateInfo :=
  let certificateURI := downloadCertificate.certificateURI E certificateURI
  match E.urlParse certificateURI with
  | .error err => .error ("error: " ++ err)
  | .ok u =>
    let address := u.Hostname ++ ":443"
    match E.dialTimeout address with
    | .error err => .error ("SSL/TLS not enabed on " ++ u.Hostname ++ "\nDial error: " ++ err)
    | .ok ipConn =>
      match E.handshake ipConn u.Hostname with
      | .error err => .error ("Invalid SSL/TLS for " ++ address ++ "\nHandshake error: " ++ err)
      | .ok peerCertificates =>
        match E.splitHostPort ipConn.RemoteAddr with
        | .error err => .error ("error: " ++ err)
        | .ok (host, port) =>
          let cert := peerCertificates.first
          .ok { certificate := cert, host := host, port := port }

/-- Source `handleError`: the two lines it writes to the log. -/
def handleError (status : Nat) (err : String) : List String :=
  ["status: " ++ toString status, err]

/-- Go `http.StatusInternalServerError`. -/
def StatusInternalServerError : Nat := 500

/-- The value of the variable `uri` of `Handle` (source line 20). -/
def Handle.uri (req : String) : String :=
  TrimSuffix req "\n"

/-- Source `Handle`, returning the result string together with the lines
written to the log. -/
def Handle.run (E : Env) (req : String) : String × List String :=
  let uri := Handle.uri req
  match downloadCertificate E uri with
  | .error err => ("", handleError StatusInternalServerError err)
  | .ok info =>
    let infoString := getCertificateDetailsAsString E info
    match E.saveToS3 infoString info.certificate.Subject.CommonName with
    | .error err => ("", handleError StatusInternalServerError err)
    | .ok fileName => (fileName, [])

/-- Source `Handle`: the string it returns. -/
def Handle (E : Env) (req : String) : String :=
  (Handle.run E req).1

/-! ## The report as the specification lists it -/

/-- The encoded value that `json.Marshal(res)` emits under `key`, when the
encoding succeeds and the object has such a member. -/
def jsonMember (E : Env) (res : Res) (key : String) : Option String :=
  match jsonMembers E res with
  | .error _ => none
  | .ok members => members.lookup key

/-- The JSON array whose elements have the given encodings. -/
def jsonArray (items : List String) : String :=
  "[" ++ ",".intercalate items ++ "]"

/-! ## Sample environments -/

/-- The certificate of the example scenario of the specification. -/
def sampleCertificate : Certificate :=
  { Issuer := ⟨"Test CA"⟩
    Subject := ⟨"example.test"⟩
    NotBefore := ⟨1704067200, 0, "UTC", 0⟩
    NotAfter := ⟨1735689600, 0, "UTC", 0⟩
    DNSNames := .elems ["example.test", "www.example.test"] }

/-- An environment in which `example.test` serves `sampleCertificate` from
`192.0.2.7:443`, the format flag is unset and the store accepts the report. -/
def sampleEnv : Env :=
  { lowerTable := fun r => if r = 'É' then 'é' else r
    urlParse := fun s =>
      let host := fun (rest : List Char) => String.mk (rest.takeWhile fun c => c != '/' && c != ':')
      if HasPrefix s "https://" then .ok ⟨host (s.data.drop 8)⟩
      else if HasPrefix s "http://" then .ok ⟨host (s.data.drop 7)⟩
      else .ok ⟨""⟩
    dialTimeout := fun address =>
      if address = "example.test:443" then .ok ⟨"192.0.2.7:443"⟩
      else .error ("dial tcp: lookup " ++ address ++ ": no such host")
    handshake := fun _ _ => .ok ⟨sampleCertificate, []⟩
    splitHostPort := fun s =>
      if s = "192.0.2.7:443" then .ok ("192.0.2.7", "443")
      else .error ("address " ++ s ++ ": missing port in address")
    getenv := fun _ => ""
    timeString := fun t =>
      if t.sec = 1704067200 then "2024-01-01 00:00:00 +0000 UTC"
      else "2025-01-01 00:00:00 +0000 UTC"
    jsonString := fun s => "\"" ++ s ++ "\""
    jsonTime := fun t =>
      if t.sec = 1704067200 then .ok "\"2024-01-01T00:00:00Z\""
      else .ok "\"2025-01-01T00:00:00Z\""
    humanizeTime := fun _ => "2 months from now"
    saveToS3 := fun _ name => .ok (name ++ ".txt") }

/-- The sample environment with the format flag set to `output=json`. -/
def sampleEnvJSON : Env :=
  { sampleEnv with getenv := fun key => if key = "Http_Query" then "output=json" else "" }

/-- The sample environment with nothing listening on port 443. -/
def sampleEnvNoListener : Env :=
  { sampleEnv with
    dialTimeout := fun address => .error ("dial tcp " ++ address ++ ": connect: connection refused") }

/-- The `certificateInfo` that `downloadCertificate` returns in the sample
environment. -/
def sampleInfo : certificateInfo :=
  { certificate := sampleCertificate, host := "192.0.2.7", port := "443" }

/-- The sample environment with the format flag set to `output=json` and a
server whose certificate has no DNS names. -/
def sampleEnvNoSANs : Env :=
  { sampleEnvJSON with
    handshake := fun _ _ => .ok ⟨{ sampleCertificate with DNSNames := .nil }, []⟩ }

/-- The sample `certificateInfo` for a certificate without DNS names: the
parser leaves `DNSNames` nil. -/
def sampleInfoNoSANs : certificateInfo :=
  { sampleInfo with
    certificate := { sampleCertificate with DNSNames := .nil } }

/-! ## Lemmas on strings -/

theorem HasSuffix_append (s suf : String) : HasSuffix (s ++ suf) suf = true := by
  simp [HasSuffix]

theorem TrimSuffix_append (s suf : String) : TrimSuffix (s ++ suf) suf = s := by
  simp [TrimSuffix, HasSuffix]

theorem TrimSuffix_of_not_suffix (s suf : String) (h : HasSuffix s suf = false) :
    TrimSuffix s suf = s := by
  simp [TrimSuffix, h]

theorem toNat_ofNat_small (n : Nat) (h : n < 0xD800) : (Char.ofNat n).toNat = n := by
  have hv : n.isValidChar := Or.inl h
  unfold Char.ofNat
  rw [dif_pos hv]
  simp only [Char.ofNatAux, Char.toNat, UInt32.toNat]
  simp

/-- Lower-casing an ASCII rune gives an ASCII rune that is not an upper-case
letter. -/
theorem unicodeToLower_ascii (tbl : Char → Char) (r : Char) (h : r.toNat ≤ 0x7F) :
    (unicodeToLower tbl r).toNat ≤ 0x7F ∧
      ¬ ('A'.toNat ≤ (unicodeToLower tbl r).toNat ∧ (unicodeToLower tbl r).toNat ≤ 'Z'.toNat) := by
  unfold unicodeToLower
  rw [if_pos h]
  have h1 : 'A'.toNat = 65 := rfl
  have h2 : 'Z'.toNat = 90 := rfl
  have h3 : 'a'.toNat = 97 := rfl
  split
  · rename_i hup
    rw [h1, h2] at hup
    rw [h1, h2, h3]
    have hv : (Char.ofNat (r.toNat + (97 - 65))).toNat = r.toNat + (97 - 65) :=
      toNat_ofNat_small _ (by omega)
    rw [hv]
    omega
  · rename_i hup
    exact ⟨h, hup⟩

/-- A rune that is ASCII and not an upper-case letter is left alone. -/
theorem unicodeToLower_fixed (tbl : Char → Char) (r : Char) (h : r.toNat ≤ 0x7F)
    (hup : ¬ ('A'.toNat ≤ r.toNat ∧ r.toNat ≤ 'Z'.toNat)) : unicodeToLower tbl r = r := by
  unfold unicodeToLower
  rw [if_pos h, if_neg hup]

/-- Rune lower-casing is idempotent as soon as the case table maps every
non-ASCII rune to a rune that lower-casing leaves alone. -/
theorem unicodeToLower_idem (tbl : Char → Char)
    (htbl : ∀ r : Char, 0x7F < r.toNat → unicodeToLower tbl (tbl r) = tbl r) (r : Char) :
    unicodeToLower tbl (unicodeToLower tbl r) = unicodeToLower tbl r := by
  by_cases h : r.toNat ≤ 0x7F
  · have := unicodeToLower_ascii tbl r h
    exact unicodeToLower_fixed tbl _ this.1 this.2
  · have hr : unicodeToLower tbl r = tbl r := by
      unfold unicodeToLower
      rw [if_neg h]
    rw [hr]
    exact htbl r (by omega)

theorem ToLower_idem (tbl : Char → Char)
    (htbl : ∀ r : Char, 0x7F < r.toNat → unicodeToLower tbl (tbl r) = tbl r) (s : String) :
    ToLower tbl (ToLower tbl s) = ToLower tbl s := by
  unfold ToLower
  simp only [List.map_map]
  congr 1
  apply List.map_congr_left
  intro r _
  exact unicodeToLower_idem tbl htbl r

theorem ToLower_https (tbl : Char → Char) (s : String) :
    ToLower tbl ("https://" ++ s) = "https://" ++ ToLower tbl s := by
  unfold ToLower
  apply String.ext
  simp only [String.data_append, List.map_append]
  rfl

theorem HasPrefix_https_http (s : String) : HasPrefix ("https://" ++ s) "http" = true := by
  unfold HasPrefix
  simp only [String.data_append]
  rfl

theorem HasPrefix_http_of_scheme (t : String)
    (h : HasPrefix t "http://" = true ∨ HasPrefix t "https://" = true) :
    HasPrefix t "http" = true := by
  unfold HasPrefix at *
  simp only [List.isPrefixOf_iff_prefix] at *
  rcases h with h | h
  · exact List.IsPrefix.trans ⟨"://".data, rfl⟩ h
  · exact List.IsPrefix.trans ⟨"s://".data, rfl⟩ h

/-! ## Request line and URI normalisation -/

/-- C10: a trailing newline is stripped before processing.  For every `s`
that does not end in a newline, `Handle` on `s` followed by a newline passes
the same string to `downloadCertificate` as `Handle` on `s` (and so behaves
the same in every environment), and for every request `t` followed by a
newline the string passed on is `t`: in every environment `Handle` does what
follows from `downloadCertificate` on `t`, without that trailing newline, and
a parser that fails with its own argument shows in the log the string
normalised from `t`. -/
theorem Handle_strips_trailing_newline (s t : String) (h : HasSuffix s "\n" = false) :
    Handle.uri (s ++ "\n") = Handle.uri s ∧
      (∀ E : Env, Handle.run E (s ++ "\n") = Handle.run E s) ∧
      Handle.uri (t ++ "\n") = t ∧
      (∀ E : Env, Handle.run E (t ++ "\n") =
        match downloadCertificate E t with
        | .error err => ("", handleError StatusInternalServerError err)
        | .ok info =>
          match E.saveToS3 (getCertificateDetailsAsString E info)
              info.certificate.Subject.CommonName with
          | .error err => ("", handleError StatusInternalServerError err)
          | .ok fileName => (fileName, [])) ∧
      (∀ E : Env, Handle.run E s =
        match downloadCertificate E s with
        | .error err => ("", handleError StatusInternalServerError err)
        | .ok info =>
          match E.saveToS3 (getCertificateDetailsAsString E info)
              info.certificate.Subject.CommonName with
          | .error err => ("", handleError StatusInternalServerError err)
          | .ok fileName => (fileName, [])) ∧
      (∀ E : Env, Handle.run { E with urlParse := fun x => .error x } (t ++ "\n") =
        ("", ["status: 500", "error: " ++ downloadCertificate.certificateURI E t])) := by
  have h1 : Handle.uri (s ++ "\n") = s := TrimSuffix_append s "\n"
  have h2 : Handle.uri s = s := TrimSuffix_of_not_suffix s "\n" h
  have h3 : Handle.uri (t ++ "\n") = t := TrimSuffix_append t "\n"
  refine ⟨by rw [h1, h2], ?_, h3, ?_, ?_, ?_⟩
  · intro E
    unfold Handle.run
    rw [h1, h2]
  · intro E
    simp only [Handle.run, h3]
  · intro E
    simp only [Handle.run, h2]
  · intro E
    simp only [Handle.run, h3, downloadCertificate]
    rfl

/-- The request `Example.test` with and without its trailing newline: both
pass `Example.test` on, and the parser that reports its argument is handed
`https://example.test`. -/
theorem Handle_strips_trailing_newline_witness :
    HasSuffix "Example.test" "\n" = false ∧
      Handle.uri ("Example.test" ++ "\n") = Handle.uri "Example.test" ∧
      (∀ E : Env, Handle.run E ("Example.test" ++ "\n") = Handle.run E "Example.test") ∧
      Handle.uri ("a\n" ++ "\n") = "a\n" ∧
      Handle.run { sampleEnv with urlParse := fun x => .error x } ("Example.test" ++ "\n") =
        ("", ["status: 500", "error: https://example.test"]) :=
  have hw := Handle_strips_trailing_newline "Example.test" "a\n" (by decide)
  ⟨by decide, hw.1, hw.2.1, hw.2.2.1,
    (Handle_strips_trailing_newline "Example.test" "Example.test" (by decide)).2.2.2.2.2 sampleEnv⟩

/-- C5: the string that `downloadCertificate` hands to the URI parser is the
lower-cased input when that starts with `http`, and `https://` followed by
the lower-cased input otherwise.  The parser that fails with its own argument
as the message shows which string it was handed. -/
theorem downloadCertificate_parser_argument (E : Env) (s : String) :
    downloadCertificate.certificateURI E s =
        (if HasPrefix (ToLower E.lowerTable s) "http" = true then ToLower E.lowerTable s
         else "https://" ++ ToLower E.lowerTable s) ∧
      downloadCertificate { E with urlParse := fun x => .error x } s =
        .error ("error: " ++
          (if HasPrefix (ToLower E.lowerTable s) "http" = true then ToLower E.lowerTable s
           else "https://" ++ ToLower E.lowerTable s)) := by
  have h : ∀ E : Env, downloadCertificate.certificateURI E s =
      (if HasPrefix (ToLower E.lowerTable s) "http" = true then ToLower E.lowerTable s
       else "https://" ++ ToLower E.lowerTable s) := by
    intro E
    unfold downloadCertificate.certificateURI
    by_cases hp : HasPrefix (ToLower E.lowerTable s) "http" = true <;> simp [hp]
  refine ⟨h E, ?_⟩
  unfold downloadCertificate
  simp only [h]

/-- C6 fails on `httpbin.org`: the lower-cased input starts with `http`, so
no scheme is prepended, and the string handed to the parser begins neither
with `http://` nor with `https://`. -/
theorem certificateURI_httpbin_unschemed (E : Env) :
    downloadCertificate.certificateURI E "httpbin.org" = "httpbin.org" ∧
      HasPrefix (downloadCertificate.certificateURI E "httpbin.org") "http://" = false ∧
      HasPrefix (downloadCertificate.certificateURI E "httpbin.org") "https://" = false :=
  ⟨rfl, rfl, rfl⟩

/-- C7: the normalisation step is idempotent.  For every input `s`,
normalising the normalised `s` gives the normalised `s`, and a lower-case
string `t` that already carries the scheme `http://` or `https://` is
returned as it is.  The one fact used about the Unicode case table is that a
lower-cased non-ASCII rune is left alone by lower-casing. -/
theorem certificateURI_idempotent (E : Env)
    (htbl : ∀ r : Char, 0x7F < r.toNat →
      unicodeToLower E.lowerTable (E.lowerTable r) = E.lowerTable r)
    (s t : String) (hlow : ToLower E.lowerTable t = t)
    (hsch : HasPrefix t "http://" = true ∨ HasPrefix t "https://" = true) :
    downloadCertificate.certificateURI E (downloadCertificate.certificateURI E s) =
        downloadCertificate.certificateURI E s ∧
      downloadCertificate.certificateURI E t = t := by
  constructor
  · unfold downloadCertificate.certificateURI
    by_cases hp : HasPrefix (ToLower E.lowerTable s) "http" = true
    · simp [hp, ToLower_idem E.lowerTable htbl]
    · simp [hp, ToLower_https, ToLower_idem E.lowerTable htbl, HasPrefix_https_http]
  · unfold downloadCertificate.certificateURI
    simp [hlow, HasPrefix_http_of_scheme t hsch]

/-- The input `ÉXAMPLE.test` and the schemed URI `https://example.test/a` in
the sample environment. -/
theorem certificateURI_idempotent_witness :
    (∀ r : Char, 0x7F < r.toNat →
      unicodeToLower sampleEnv.lowerTable (sampleEnv.lowerTable r) = sampleEnv.lowerTable r) ∧
    ToLower sampleEnv.lowerTable "https://example.test/a" = "https://example.test/a" ∧
    (HasPrefix "https://example.test/a" "http://" = true ∨
      HasPrefix "https://example.test/a" "https://" = true) ∧
    downloadCertificate.certificateURI sampleEnv
        (downloadCertificate.certificateURI sampleEnv "ÉXAMPLE.test") =
      downloadCertificate.certificateURI sampleEnv "ÉXAMPLE.test" ∧
    downloadCertificate.certificateURI sampleEnv "https://example.test/a" =
      "https://example.test/a" :=
  have htbl : ∀ r : Char, 0x7F < r.toNat →
      unicodeToLower sampleEnv.lowerTable (sampleEnv.lowerTable r) = sampleEnv.lowerTable r := by
    intro r hr
    show unicodeToLower sampleEnv.lowerTable (if r = 'É' then 'é' else r) =
      (if r = 'É' then 'é' else r)
    by_cases h : r = 'É'
    · rw [if_pos h]
      rfl
    · rw [if_neg h]
      unfold unicodeToLower
      rw [if_neg (by omega)]
      show (if r = 'É' then 'é' else r) = r
      rw [if_neg h]
  ⟨htbl, by decide, Or.inr (by decide),
    certificateURI_idempotent sampleEnv htbl "ÉXAMPLE.test" "https://example.test/a"
      (by decide) (Or.inr (by decide))⟩

/-! ## The formatter -/

theorem linesOf_ne_nil (cs : List Char) : linesOf cs ≠ [] := by
  cases cs with
  | nil => simp [linesOf]
  | cons c cs =>
    unfold linesOf
    split
    · simp
    · split <;> simp

theorem getCertificateDetailsAsString_of_flag (E : Env) (info : certificateInfo)
    (h : E.getenv "Http_Query" = "output=json") :
    getCertificateDetailsAsString E info = getCertificateDetailsAsString.json E info := by
  have hlen : "output=json".length ≠ 0 := by decide
  unfold getCertificateDetailsAsString
  simp [h, hlen]

/-- C4 as stated fails: for a certificate without DNS names the `DNSNames`
slice is nil, and in JSON mode the `SANs` member of the emitted object is
`null`, not the empty array. -/
theorem json_SANs_null_without_names :
    downloadCertificate sampleEnvNoSANs "example.test" = .ok sampleInfoNoSANs ∧
      sampleInfoNoSANs.certificate.DNSNames.toList = [] ∧
      getCertificateDetailsAsString sampleEnvNoSANs sampleInfoNoSANs =
        "\x7b\"Host\":\"192.0.2.7\",\"Port\":\"443\",\"Issuer\":\"Test CA\",\"CommonName\":\"example.test\",\"NotBefore\":\"2024-01-01T00:00:00Z\",\"NotAfter\":\"2025-01-01T00:00:00Z\",\"NotAfterUnix\":1735689600,\"SANs\":null,\"TimeRemaining\":\"2 months from now\"\x7d" ∧
      jsonMember sampleEnvNoSANs
        (getCertificateDetailsAsString.res sampleEnvNoSANs sampleInfoNoSANs) "SANs" = some "null" ∧
      jsonMember sampleEnvNoSANs
        (getCertificateDetailsAsString.res sampleEnvNoSANs sampleInfoNoSANs) "SANs" ≠
          some (jsonArray []) := by
  refine ⟨rfl, rfl, rfl, rfl, by decide⟩

/-- C4, amended: in JSON mode, when the encoding succeeds, the emitted text
is the object with the nine members in field order, and its `SANs` member is
the JSON array of the encoded DNS names, in the order of the certificate,
when the `DNSNames` slice is not nil (the empty array for an allocated empty
slice), and `null` when it is nil, as it is for a certificate without DNS
names. -/
theorem json_SANs_value (E : Env) (info : certificateInfo) (members : List (String × String))
    (hflag : E.getenv "Http_Query" = "output=json")
    (hm : jsonMembers E (getCertificateDetailsAsString.res E info) = .ok members) :
    getCertificateDetailsAsString E info = jsonObject members ∧
      members.map Prod.fst =
        ["Host", "Port", "Issuer", "CommonName", "NotBefore", "NotAfter", "NotAfterUnix",
          "SANs", "TimeRemaining"] ∧
      jsonMember E (getCertificateDetailsAsString.res E info) "SANs" =
        some (match info.certificate.DNSNames with
          | .nil => "null"
          | .elems names => jsonArray (names.map E.jsonString)) := by
  have hout : getCertificateDetailsAsString E info = jsonObject members := by
    rw [getCertificateDetailsAsString_of_flag E info hflag]
    simp only [getCertificateDetailsAsString.json, jsonMarshal, hm]
  refine ⟨hout, ?_, ?_⟩
  · unfold jsonMembers at hm
    split at hm
    · exact absurd hm (by simp)
    · split at hm
      · exact absurd hm (by simp)
      · injection hm with hm
        rw [← hm]
        rfl
  · unfold jsonMember
    rw [hm]
    unfold jsonMembers at hm
    split at hm
    · exact absurd hm (by simp)
    · split at hm
      · exact absurd hm (by simp)
      · injection hm with hm
        rw [← hm]
        cases hd : info.certificate.DNSNames <;>
          simp [List.lookup, getCertificateDetailsAsString.res, jsonStrings, jsonArray, hd]

/-- The JSON members of the example scenario. -/
theorem json_SANs_value_witness :
    sampleEnvJSON.getenv "Http_Query" = "output=json" ∧
      jsonMembers sampleEnvJSON (getCertificateDetailsAsString.res sampleEnvJSON sampleInfo) =
        .ok [("Host", "\"192.0.2.7\""), ("Port", "\"443\""), ("Issuer", "\"Test CA\""),
          ("CommonName", "\"example.test\""), ("NotBefore", "\"2024-01-01T00:00:00Z\""),
          ("NotAfter", "\"2025-01-01T00:00:00Z\""), ("NotAfterUnix", "1735689600"),
          ("SANs", "[\"example.test\",\"www.example.test\"]"),
          ("TimeRemaining", "\"2 months from now\"")] ∧
      jsonMember sampleEnvJSON (getCertificateDetailsAsString.res sampleEnvJSON sampleInfo) "SANs" =
        some "[\"example.test\",\"www.example.test\"]" :=
  ⟨rfl, rfl, (json_SANs_value sampleEnvJSON sampleInfo _ rfl rfl).2.2⟩

/-! ## Fetching and the request boundary -/

theorem downloadCertificate_of_parse_error (E : Env) (s err : String)
    (hp : E.urlParse (downloadCertificate.certificateURI E s) = .error err) :
    downloadCertificate E s = .error ("error: " ++ err) := by
  simp only [downloadCertificate, hp]

theorem downloadCertificate_of_dial_error (E : Env) (s err : String) (u : URL)
    (hp : E.urlParse (downloadCertificate.certificateURI E s) = .ok u)
    (hd : E.dialTimeout (u.Hostname ++ ":443") = .error err) :
    downloadCertificate E s =
      .error ("SSL/TLS not enabed on " ++ u.Hostname ++ "\nDial error: " ++ err) := by
  simp only [downloadCertificate, hp, hd]

theorem downloadCertificate_of_handshake_error (E : Env) (s err : String) (u : URL)
    (ipConn : NetConn)
    (hp : E.urlParse (downloadCertificate.certificateURI E s) = .ok u)
    (hd : E.dialTimeout (u.Hostname ++ ":443") = .ok ipConn)
    (hh : E.handshake ipConn u.Hostname = .error err) :
    downloadCertificate E s =
      .error ("Invalid SSL/TLS for " ++ (u.Hostname ++ ":443") ++ "\nHandshake error: " ++ err) := by
  simp only [downloadCertificate, hp, hd, hh]

theorem downloadCertificate_of_split_error (E : Env) (s err : String) (u : URL)
    (ipConn : NetConn) (chain : PeerCertificates)
    (hp : E.urlParse (downloadCertificate.certificateURI E s) = .ok u)
    (hd : E.dialTimeout (u.Hostname ++ ":443") = .ok ipConn)
    (hh : E.handshake ipConn u.Hostname = .ok chain)
    (hs : E.splitHostPort ipConn.RemoteAddr = .error err) :
    downloadCertificate E s = .error ("error: " ++ err) := by
  simp only [downloadCertificate, hp, hd, hh, hs]

theorem downloadCertificate_of_success (E : Env) (s host port : String) (u : URL)
    (ipConn : NetConn) (chain : PeerCertificates)
    (hp : E.urlParse (downloadCertificate.certificateURI E s) = .ok u)
    (hd : E.dialTimeout (u.Hostname ++ ":443") = .ok ipConn)
    (hh : E.handshake ipConn u.Hostname = .ok chain)
    (hs : E.splitHostPort ipConn.RemoteAddr = .ok (host, port)) :
    downloadCertificate E s = .ok { certificate := chain.first, host := host, port := port } := by
  simp only [downloadCertificate, hp, hd, hh, hs]

/-- The failures of `downloadCertificate` are the four failures of its steps:
URI parse, dial, handshake and address split. -/
theorem downloadCertificate_error_iff (E : Env) (s : String) :
    (∃ err, downloadCertificate E s = .error err) ↔
      ((∃ err, E.urlParse (downloadCertificate.certificateURI E s) = .error err) ∨
        (∃ u err, E.urlParse (downloadCertificate.certificateURI E s) = .ok u ∧
          E.dialTimeout (u.Hostname ++ ":443") = .error err) ∨
        (∃ u ipConn err, E.urlParse (downloadCertificate.certificateURI E s) = .ok u ∧
          E.dialTimeout (u.Hostname ++ ":443") = .ok ipConn ∧
          E.handshake ipConn u.Hostname = .error err) ∨
        (∃ u ipConn err, E.urlParse (downloadCertificate.certificateURI E s) = .ok u ∧
          E.dialTimeout (u.Hostname ++ ":443") = .ok ipConn ∧
          (∃ chain, E.handshake ipConn u.Hostname = .ok chain) ∧
          E.splitHostPort ipConn.RemoteAddr = .error err)) := by
  constructor
  · intro hfail
    cases hp : E.urlParse (downloadCertificate.certificateURI E s) with
    | error e => exact Or.inl ⟨e, rfl⟩
    | ok u =>
      cases hd : E.dialTimeout (u.Hostname ++ ":443") with
      | error e => exact Or.inr (Or.inl ⟨u, e, rfl, hd⟩)
      | ok ipConn =>
        cases hh : E.handshake ipConn u.Hostname with
        | error e => exact Or.inr (Or.inr (Or.inl ⟨u, ipConn, e, rfl, hd, hh⟩))
        | ok chain =>
          cases hs : E.splitHostPort ipConn.RemoteAddr with
          | error e => exact Or.inr (Or.inr (Or.inr ⟨u, ipConn, e, rfl, hd, ⟨chain, hh⟩, hs⟩))
          | ok hostPort =>
            obtain ⟨err, herr⟩ := hfail
            rw [downloadCertificate_of_success E s hostPort.1 hostPort.2 u ipConn chain hp hd hh hs]
              at herr
            exact absurd herr (by simp)
  · rintro (⟨e, hp⟩ | ⟨u, e, hp, hd⟩ | ⟨u, ipConn, e, hp, hd, hh⟩ | ⟨u, ipConn, e, hp, hd, ⟨chain, hh⟩, hs⟩)
    · exact ⟨_, downloadCertificate_of_parse_error E s e hp⟩
    · exact ⟨_, downloadCertificate_of_dial_error E s e u hp hd⟩
    · exact ⟨_, downloadCertificate_of_handshake_error E s e u ipConn hp hd hh⟩
    · exact ⟨_, downloadCertificate_of_split_error E s e u ipConn chain hp hd hh hs⟩

/-- C1: when `downloadCertificate` returns an error (which it does exactly
on a URI parse, dial, handshake or address-split failure), or when
`downloadCertificate` succeeds and `saveToS3` returns an error, `Handle`
returns the empty string. -/
theorem Handle_empty_on_failure (E : Env) (req : String)
    (h : ((∃ err, E.urlParse (downloadCertificate.certificateURI E (Handle.uri req)) = .error err) ∨
        (∃ u err, E.urlParse (downloadCertificate.certificateURI E (Handle.uri req)) = .ok u ∧
          E.dialTimeout (u.Hostname ++ ":443") = .error err) ∨
        (∃ u ipConn err,
          E.urlParse (downloadCertificate.certificateURI E (Handle.uri req)) = .ok u ∧
          E.dialTimeout (u.Hostname ++ ":443") = .ok ipConn ∧
          E.handshake ipConn u.Hostname = .error err) ∨
        (∃ u ipConn err,
          E.urlParse (downloadCertificate.certificateURI E (Handle.uri req)) = .ok u ∧
          E.dialTimeout (u.Hostname ++ ":443") = .ok ipConn ∧
          (∃ chain, E.handshake ipConn u.Hostname = .ok chain) ∧
          E.splitHostPort ipConn.RemoteAddr = .error err)) ∨
      (∃ err, downloadCertificate E (Handle.uri req) = .error err) ∨
      (∃ info err, downloadCertificate E (Handle.uri req) = .ok info ∧
        E.saveToS3 (getCertificateDetailsAsString E info) info.certificate.Subject.CommonName =
          .error err)) :
    Handle E req = "" := by
  have hdl : (∃ err, downloadCertificate E (Handle.uri req) = .error err) ∨
      (∃ info err, downloadCertificate E (Handle.uri req) = .ok info ∧
        E.saveToS3 (getCertificateDetailsAsString E info) info.certificate.Subject.CommonName =
          .error err) := by
    rcases h with h | h | h
    · exact Or.inl ((downloadCertificate_error_iff E _).mpr h)
    · exact Or.inl h
    · exact Or.inr h
  rcases hdl with ⟨err, he⟩ | ⟨info, err, hi, hs⟩
  · simp only [Handle, Handle.run, he]
  · simp only [Handle, Handle.run, hi, hs]

/-- The request `example.test` when nothing listens on port 443. -/
theorem Handle_empty_on_failure_witness :
    (∃ u err,
        sampleEnvNoListener.urlParse
          (downloadCertificate.certificateURI sampleEnvNoListener (Handle.uri "example.test\n")) =
            .ok u ∧
        sampleEnvNoListener.dialTimeout (u.Hostname ++ ":443") = .error err) ∧
      Handle sampleEnvNoListener "example.test\n" = "" :=
  have hdial : ∃ u err,
      sampleEnvNoListener.urlParse
        (downloadCertificate.certificateURI sampleEnvNoListener (Handle.uri "example.test\n")) =
          .ok u ∧
      sampleEnvNoListener.dialTimeout (u.Hostname ++ ":443") = .error err :=
    ⟨⟨"example.test"⟩, "dial tcp example.test:443: connect: connection refused", rfl, rfl⟩
  ⟨hdial, Handle_empty_on_failure sampleEnvNoListener "example.test\n" (Or.inl (Or.inr (Or.inl hdial)))⟩

/-- C8 fails on the message text: after a failed dial the error reads
`SSL/TLS not enabed on` and the host name, then `Dial error:` and the network
error, so it does not start with `SSL/TLS not enabled on` and the host
name. -/
theorem downloadCertificate_dial_message :
    downloadCertificate sampleEnvNoListener "example.test" =
        .error ("SSL/TLS not enabed on example.test\nDial error: " ++
          "dial tcp example.test:443: connect: connection refused") ∧
      HasPrefix ("SSL/TLS not enabed on example.test\nDial error: " ++
          "dial tcp example.test:443: connect: connection refused")
        ("SSL/TLS not enabled on " ++ "example.test") = false :=
  ⟨rfl, rfl⟩

/-- C9: when dial, handshake and address split succeed, the returned
`certificateInfo` holds the host and port that `net.SplitHostPort` gives for
the remote address of the established connection, and the first certificate
of the peer chain; a second input that leads to a connection with the same
remote address and the same peer chain gives the same `certificateInfo`,
whatever the two input strings are. -/
theorem downloadCertificate_host_port_from_connection (E : Env) (s₁ s₂ host port : String)
    (u₁ u₂ : URL) (c₁ c₂ : NetConn) (chain₁ chain₂ : PeerCertificates)
    (hp₁ : E.urlParse (downloadCertificate.certificateURI E s₁) = .ok u₁)
    (hd₁ : E.dialTimeout (u₁.Hostname ++ ":443") = .ok c₁)
    (hh₁ : E.handshake c₁ u₁.Hostname = .ok chain₁)
    (hs₁ : E.splitHostPort c₁.RemoteAddr = .ok (host, port))
    (hp₂ : E.urlParse (downloadCertificate.certificateURI E s₂) = .ok u₂)
    (hd₂ : E.dialTimeout (u₂.Hostname ++ ":443") = .ok c₂)
    (hh₂ : E.handshake c₂ u₂.Hostname = .ok chain₂)
    (haddr : c₂.RemoteAddr = c₁.RemoteAddr) (hchain : chain₂ = chain₁) :
    downloadCertificate E s₁ =
        .ok { certificate := chain₁.first, host := host, port := port } ∧
      downloadCertificate E s₂ = downloadCertificate E s₁ := by
  have h₁ := downloadCertificate_of_success E s₁ host port u₁ c₁ chain₁ hp₁ hd₁ hh₁ hs₁
  have h₂ := downloadCertificate_of_success E s₂ host port u₂ c₂ chain₂ hp₂ hd₂ hh₂
    (by rw [haddr]; exact hs₁)
  refine ⟨h₁, ?_⟩
  rw [h₁, h₂, hchain]

/-- The inputs `example.test` and `HTTPS://Example.Test:8443/about` reach the
same connection in the sample environment. -/
theorem downloadCertificate_host_port_from_connection_witness :
    sampleEnv.splitHostPort "192.0.2.7:443" = .ok ("192.0.2.7", "443") ∧
      downloadCertificate sampleEnv "example.test" =
        .ok { certificate := sampleCertificate, host := "192.0.2.7", port := "443" } ∧
      downloadCertificate sampleEnv "HTTPS://Example.Test:8443/about" =
        downloadCertificate sampleEnv "example.test" :=
  ⟨rfl,
    downloadCertificate_host_port_from_connection sampleEnv "example.test"
      "HTTPS://Example.Test:8443/about" "192.0.2.7" "443" ⟨"example.test"⟩ ⟨"example.test"⟩
      ⟨"192.0.2.7:443"⟩ ⟨"192.0.2.7:443"⟩ ⟨sampleCertificate, []⟩ ⟨sampleCertificate, []⟩
      rfl rfl rfl rfl rfl rfl rfl rfl rfl⟩

end CertInfo
